import Mathlib

/-!
Verification of the JJB_Gallery repository specification against its source.

Each Python module relevant to the frozen claims is shallowly embedded as
executable Lean definitions (machine integers as `Int`, Python `float`
arithmetic as exact `Rat` arithmetic, strings as `List Char`, exceptions as
`Except` or an explicit error component, the file system and network probes as
explicit values threaded through the functions).  The claims are then settled
as theorems about these definitions.
-/

/-! ## Psychometrics/nasa_tlx.py -/

namespace NasaTLX

/-- The six NASA-TLX dimensions, in the order of `NASATLX.DIMENSIONS` /
the `dimensions` list in `TLXPairwiseComparison.calculate_weights`. -/
inductive Dim where
  | mental_demand
  | physical_demand
  | temporal_demand
  | performance
  | effort
  | frustration
deriving DecidableEq, Repr

/-- Source `TLXRating`: one integer rating per dimension (source: dataclass with six
`int` fields). -/
structure TLXRating where
  mental_demand : Int
  physical_demand : Int
  temporal_demand : Int
  performance : Int
  effort : Int
  frustration : Int
deriving DecidableEq, Repr

/-- Source `TLXRating.validate`: `all(1 <= r <= 20 for r in ratings)` over the six
field values. -/
def TLXRating.validate (r : TLXRating) : Bool :=
  [r.mental_demand, r.physical_demand, r.temporal_demand,
   r.performance, r.effort, r.frustration].all
    (fun v => decide (1 ≤ v ∧ v ≤ 20))

/-- Source `TLXRating.to_dict` viewed as a lookup by dimension. -/
def TLXRating.get (r : TLXRating) : Dim → Int
  | .mental_demand => r.mental_demand
  | .physical_demand => r.physical_demand
  | .temporal_demand => r.temporal_demand
  | .performance => r.performance
  | .effort => r.effort
  | .frustration => r.frustration

/-- Source `TLXPairwiseComparison`: the 15 pairwise comparison values (source:
dataclass with 15 `int` fields, each intended to lie in `[-3, 3]`). -/
structure TLXPairwiseComparison where
  mental_vs_physical : Int
  mental_vs_temporal : Int
  mental_vs_performance : Int
  mental_vs_effort : Int
  mental_vs_frustration : Int
  physical_vs_temporal : Int
  physical_vs_performance : Int
  physical_vs_effort : Int
  physical_vs_frustration : Int
  temporal_vs_performance : Int
  temporal_vs_effort : Int
  temporal_vs_frustration : Int
  performance_vs_effort : Int
  performance_vs_frustration : Int
  effort_vs_frustration : Int
deriving DecidableEq, Repr

/-- Source `TLXPairwiseComparison.validate`: `all(-3 <= c <= 3 for c in comparisons)`. -/
def TLXPairwiseComparison.validate (c : TLXPairwiseComparison) : Bool :=
  [c.mental_vs_physical, c.mental_vs_temporal, c.mental_vs_performance,
   c.mental_vs_effort, c.mental_vs_frustration, c.physical_vs_temporal,
   c.physical_vs_performance, c.physical_vs_effort, c.physical_vs_frustration,
   c.temporal_vs_performance, c.temporal_vs_effort, c.temporal_vs_frustration,
   c.performance_vs_effort, c.performance_vs_frustration,
   c.effort_vs_frustration].all (fun v => decide (-3 ≤ v ∧ v ≤ 3))

/-- Win magnitude credited to the FIRST dimension of a comparison `v`:
the source's `if v > 0: wins[first] += abs(v)` branch contributes `|v|`
to the first dimension exactly when `v > 0`. -/
def winUp (v : Int) : Int := if 0 < v then |v| else 0

/-- Win magnitude credited to the SECOND dimension of a comparison `v`:
the source's `else: wins[second] += abs(v)` branch contributes `|v|` to the
second dimension exactly when `¬ v > 0`. -/
def winDown (v : Int) : Int := if 0 < v then 0 else |v|

/-- The `wins` dictionary of `TLXPairwiseComparison.calculate_weights` after
the fifteen `if`/`else` accumulation steps: each dimension receives the
`winUp`/`winDown` share of each of the five comparisons that involve it. -/
def TLXPairwiseComparison.wins (c : TLXPairwiseComparison) : Dim → Int
  | .mental_demand =>
      winUp c.mental_vs_physical + winUp c.mental_vs_temporal +
      winUp c.mental_vs_performance + winUp c.mental_vs_effort +
      winUp c.mental_vs_frustration
  | .physical_demand =>
      winDown c.mental_vs_physical + winUp c.physical_vs_temporal +
      winUp c.physical_vs_performance + winUp c.physical_vs_effort +
      winUp c.physical_vs_frustration
  | .temporal_demand =>
      winDown c.mental_vs_temporal + winDown c.physical_vs_temporal +
      winUp c.temporal_vs_performance + winUp c.temporal_vs_effort +
      winUp c.temporal_vs_frustration
  | .performance =>
      winDown c.mental_vs_performance + winDown c.physical_vs_performance +
      winDown c.temporal_vs_performance + winUp c.performance_vs_effort +
      winUp c.performance_vs_frustration
  | .effort =>
      winDown c.mental_vs_effort + winDown c.physical_vs_effort +
      winDown c.temporal_vs_effort + winDown c.performance_vs_effort +
      winUp c.effort_vs_frustration
  | .frustration =>
      winDown c.mental_vs_frustration + winDown c.physical_vs_frustration +
      winDown c.temporal_vs_frustration + winDown c.performance_vs_frustration +
      winDown c.effort_vs_frustration

/-- Source `total_wins = sum(wins.values())`. -/
def TLXPairwiseComparison.total_wins (c : TLXPairwiseComparison) : Int :=
  c.wins .mental_demand + c.wins .physical_demand + c.wins .temporal_demand +
  c.wins .performance + c.wins .effort + c.wins .frustration

/-- Source `TLXPairwiseComparison.calculate_weights`: equal weights `1/6` when
`total_wins == 0`, otherwise `wins[dim] / total_wins` per dimension. -/
def TLXPairwiseComparison.calculate_weights (c : TLXPairwiseComparison) :
    Dim → Rat := fun d =>
  if c.total_wins = 0 then 1/6
  else (c.wins d : Rat) / (c.total_wins : Rat)

/-- Spec-side view of the 15 comparisons as `(first, second, value)` triples,
in source field order. -/
def TLXPairwiseComparison.comparisons (c : TLXPairwiseComparison) :
    List (Dim × Dim × Int) :=
  [(.mental_demand, .physical_demand, c.mental_vs_physical),
   (.mental_demand, .temporal_demand, c.mental_vs_temporal),
   (.mental_demand, .performance, c.mental_vs_performance),
   (.mental_demand, .effort, c.mental_vs_effort),
   (.mental_demand, .frustration, c.mental_vs_frustration),
   (.physical_demand, .temporal_demand, c.physical_vs_temporal),
   (.physical_demand, .performance, c.physical_vs_performance),
   (.physical_demand, .effort, c.physical_vs_effort),
   (.physical_demand, .frustration, c.physical_vs_frustration),
   (.temporal_demand, .performance, c.temporal_vs_performance),
   (.temporal_demand, .effort, c.temporal_vs_effort),
   (.temporal_demand, .frustration, c.temporal_vs_frustration),
   (.performance, .effort, c.performance_vs_effort),
   (.performance, .frustration, c.performance_vs_frustration),
   (.effort, .frustration, c.effort_vs_frustration)]

/-- Spec-side win mass of a dimension, following the spec's words: the sum of
the absolute magnitudes a dimension "wins" over its comparisons, where a
comparison with value `v` is won by the first dimension when `v > 0` and by
the second dimension otherwise. -/
def specWinMass (c : TLXPairwiseComparison) (d : Dim) : Int :=
  (c.comparisons.map
    (fun t => if (if 0 < t.2.2 then t.1 else t.2.1) = d then |t.2.2| else 0)).sum

/-- Spec-side total win mass over all dimensions. -/
def specTotalMass (c : TLXPairwiseComparison) : Int :=
  (c.comparisons.map (fun t => |t.2.2|)).sum

/-- A single comparison's spec-side credit to `d` splits into the code's
`winUp` share (when `d` is the first dimension) plus the `winDown` share
(when `d` is the second dimension). -/
theorem winner_share (a b : Dim) (v : Int) (d : Dim) :
    (if (if 0 < v then a else b) = d then |v| else 0) =
      (if a = d then winUp v else 0) + (if b = d then winDown v else 0) := by
  by_cases h1 : a = d <;> by_cases h2 : b = d <;> by_cases h3 : 0 < v <;>
    simp [winUp, winDown, h1, h2, h3]

/-- The code's per-dimension `wins` accumulator equals the spec-side win mass. -/
theorem wins_eq_specWinMass (c : TLXPairwiseComparison) (d : Dim) :
    c.wins d = specWinMass c d := by
  simp only [specWinMass, TLXPairwiseComparison.comparisons, List.map_cons,
    List.map_nil, List.sum_cons, List.sum_nil, winner_share]
  cases d <;> simp [TLXPairwiseComparison.wins] <;> ring

/-- The code's `total_wins` equals the spec-side total mass
`sum over the 15 comparisons of |value|`. -/
theorem total_wins_eq_specTotalMass (c : TLXPairwiseComparison) :
    c.total_wins = specTotalMass c := by
  have h : ∀ v : Int, winUp v + winDown v = |v| := by
    intro v; by_cases h : 0 < v <;> simp [winUp, winDown, h]
  simp only [TLXPairwiseComparison.total_wins, TLXPairwiseComparison.wins,
    specTotalMass, TLXPairwiseComparison.comparisons, List.map_cons,
    List.map_nil, List.sum_cons, List.sum_nil]
  have h1 := h c.mental_vs_physical
  have h2 := h c.mental_vs_temporal
  have h3 := h c.mental_vs_performance
  have h4 := h c.mental_vs_effort
  have h5 := h c.mental_vs_frustration
  have h6 := h c.physical_vs_temporal
  have h7 := h c.physical_vs_performance
  have h8 := h c.physical_vs_effort
  have h9 := h c.physical_vs_frustration
  have h10 := h c.temporal_vs_performance
  have h11 := h c.temporal_vs_effort
  have h12 := h c.temporal_vs_frustration
  have h13 := h c.performance_vs_effort
  have h14 := h c.performance_vs_frustration
  have h15 := h c.effort_vs_frustration
  linarith

theorem winUp_nonneg (v : Int) : 0 ≤ winUp v := by
  unfold winUp; split <;> simp [abs_nonneg]

theorem winDown_nonneg (v : Int) : 0 ≤ winDown v := by
  unfold winDown; split <;> simp [abs_nonneg]

/-- Every accumulated win count is nonnegative. -/
theorem wins_nonneg (c : TLXPairwiseComparison) (d : Dim) : 0 ≤ c.wins d := by
  cases d <;> simp only [TLXPairwiseComparison.wins] <;>
    (repeat' apply add_nonneg) <;>
    first
      | exact winUp_nonneg _
      | exact winDown_nonneg _

/-- Source `total_wins` is nonnegative. -/
theorem total_wins_nonneg (c : TLXPairwiseComparison) : 0 ≤ c.total_wins := by
  unfold TLXPairwiseComparison.total_wins
  have h := wins_nonneg c
  have h1 := h .mental_demand
  have h2 := h .physical_demand
  have h3 := h .temporal_demand
  have h4 := h .performance
  have h5 := h .effort
  have h6 := h .frustration
  linarith

/-- Every weight produced by `calculate_weights` is nonnegative. -/
theorem calculate_weights_nonneg (c : TLXPairwiseComparison) (d : Dim) :
    0 ≤ c.calculate_weights d := by
  unfold TLXPairwiseComparison.calculate_weights
  split
  · norm_num
  · apply div_nonneg
    · exact_mod_cast wins_nonneg c d
    · exact_mod_cast total_wins_nonneg c

/-- The six weights produced by `calculate_weights` sum to exactly 1. -/
theorem calculate_weights_sum_one (c : TLXPairwiseComparison) :
    c.calculate_weights .mental_demand + c.calculate_weights .physical_demand +
    c.calculate_weights .temporal_demand + c.calculate_weights .performance +
    c.calculate_weights .effort + c.calculate_weights .frustration = 1 := by
  unfold TLXPairwiseComparison.calculate_weights
  by_cases h : c.total_wins = 0
  · simp [h]; norm_num
  · simp only [h, if_false]
    have hQ : (c.total_wins : Rat) ≠ 0 := by exact_mod_cast h
    have hsum : (c.wins .mental_demand : Rat) + (c.wins .physical_demand : Rat) +
        (c.wins .temporal_demand : Rat) + (c.wins .performance : Rat) +
        (c.wins .effort : Rat) + (c.wins .frustration : Rat) =
        (c.total_wins : Rat) := by
      unfold TLXPairwiseComparison.total_wins
      push_cast
      ring
    field_simp
    linarith [hsum]

end NasaTLX

/-- C1: for every complete set of 15 pairwise comparison values each in
`[-3,+3]`, `TLXPairwiseComparison.calculate_weights` returns six weights that
sum to 1; each dimension's weight equals the sum of the absolute magnitudes it
wins across its comparisons divided by the total win mass (equal weights `1/6`
when the total mass is zero); and if every one of the 15 comparison values is
0, every weight equals exactly `1/6`. -/
theorem claim_C1 (c : NasaTLX.TLXPairwiseComparison)
    (hv : c.validate = true) :
    (c.calculate_weights .mental_demand + c.calculate_weights .physical_demand +
     c.calculate_weights .temporal_demand + c.calculate_weights .performance +
     c.calculate_weights .effort + c.calculate_weights .frustration = 1) ∧
    (∀ d : NasaTLX.Dim, c.calculate_weights d =
      if NasaTLX.specTotalMass c = 0 then 1/6
      else (NasaTLX.specWinMass c d : Rat) / (NasaTLX.specTotalMass c : Rat)) ∧
    (c = ⟨0, 0, 0, 0, 0, 0, 0, 0, 0, 0, 0, 0, 0, 0, 0⟩ →
      ∀ d : NasaTLX.Dim, c.calculate_weights d = 1/6) := by
  refine ⟨NasaTLX.calculate_weights_sum_one c, ?_, ?_⟩
  · intro d
    unfold NasaTLX.TLXPairwiseComparison.calculate_weights
    rw [NasaTLX.total_wins_eq_specTotalMass c, NasaTLX.wins_eq_specWinMass c d]
  · rintro rfl d
    have h0 : (⟨0, 0, 0, 0, 0, 0, 0, 0, 0, 0, 0, 0, 0, 0, 0⟩ :
        NasaTLX.TLXPairwiseComparison).total_wins = 0 := by decide
    simp [NasaTLX.TLXPairwiseComparison.calculate_weights, h0]

/-- Witness for C1 at a concrete, fully valid comparison set. -/
theorem claim_C1_witness :
    (NasaTLX.TLXPairwiseComparison.validate
      ⟨3, -2, 0, 1, -1, 2, 0, -3, 1, 2, -2, 3, -1, 0, 1⟩ = true) ∧
    ((⟨3, -2, 0, 1, -1, 2, 0, -3, 1, 2, -2, 3, -1, 0, 1⟩ :
        NasaTLX.TLXPairwiseComparison).calculate_weights .mental_demand +
     (⟨3, -2, 0, 1, -1, 2, 0, -3, 1, 2, -2, 3, -1, 0, 1⟩ :
        NasaTLX.TLXPairwiseComparison).calculate_weights .physical_demand +
     (⟨3, -2, 0, 1, -1, 2, 0, -3, 1, 2, -2, 3, -1, 0, 1⟩ :
        NasaTLX.TLXPairwiseComparison).calculate_weights .temporal_demand +
     (⟨3, -2, 0, 1, -1, 2, 0, -3, 1, 2, -2, 3, -1, 0, 1⟩ :
        NasaTLX.TLXPairwiseComparison).calculate_weights .performance +
     (⟨3, -2, 0, 1, -1, 2, 0, -3, 1, 2, -2, 3, -1, 0, 1⟩ :
        NasaTLX.TLXPairwiseComparison).calculate_weights .effort +
     (⟨3, -2, 0, 1, -1, 2, 0, -3, 1, 2, -2, 3, -1, 0, 1⟩ :
        NasaTLX.TLXPairwiseComparison).calculate_weights .frustration = 1) :=
  ⟨by decide, (claim_C1 ⟨3, -2, 0, 1, -1, 2, 0, -3, 1, 2, -2, 3, -1, 0, 1⟩
      (by decide)).1⟩

namespace NasaTLX

/-- Source `TLXResult`: a complete TLX assessment (task metadata plus optional
rating, comparison, cached scores, weights and per-dimension scores). -/
structure TLXResult where
  task_name : List Char
  participant_id : Option (List Char) := none
  rating : Option TLXRating := none
  pairwise_comparison : Option TLXPairwiseComparison := none
  raw_tlx_score : Option Rat := none
  weighted_tlx_score : Option Rat := none
  dimension_scores : Option (Dim → Rat) := none
  weights : Option (Dim → Rat) := none

/-- Source `TLXResult.calculate_raw_tlx`: `statistics.mean` of the six ratings after
the rating-presence and range checks; the updated result caches the score. -/
def TLXResult.calculate_raw_tlx (r : TLXResult) :
    Except (List Char) TLXResult :=
  match r.rating with
  | none => .error "Rating required for raw TLX calculation".toList
  | some rt =>
    if rt.validate = false then .error "Invalid rating values".toList
    else
      let score : Rat :=
        ((rt.mental_demand + rt.physical_demand + rt.temporal_demand +
          rt.performance + rt.effort + rt.frustration : Int) : Rat) / 6
      .ok { r with raw_tlx_score := some score }

/-- Source `TLXResult.calculate_weighted_tlx`: validates rating and comparison,
computes the weights, the weighted sum over the six dimensions, and the
per-dimension scores, caching all three on the result. -/
def TLXResult.calculate_weighted_tlx (r : TLXResult) :
    Except (List Char) TLXResult :=
  match r.rating with
  | none => .error "Rating required for weighted TLX calculation".toList
  | some rt =>
    if rt.validate = false then .error "Invalid rating values".toList
    else
      match r.pairwise_comparison with
      | none => .error "Pairwise comparison required for weighted TLX".toList
      | some pc =>
        if pc.validate = false then
          .error "Invalid pairwise comparison values".toList
        else
          let w : Dim → Rat := pc.calculate_weights
          let weighted_sum : Rat :=
            w .mental_demand * (rt.get .mental_demand : Rat) +
            w .physical_demand * (rt.get .physical_demand : Rat) +
            w .temporal_demand * (rt.get .temporal_demand : Rat) +
            w .performance * (rt.get .performance : Rat) +
            w .effort * (rt.get .effort : Rat) +
            w .frustration * (rt.get .frustration : Rat)
          .ok { r with
                weights := some w,
                weighted_tlx_score := some weighted_sum,
                dimension_scores := some (fun d => w d * (rt.get d : Rat)) }

/-- Source `NASATLX.add_rating`: builds a `TLXRating` from the six values, raises if
it fails validation (leaving the result untouched), otherwise attaches it.
The first component models the raised `ValueError` message, the second the
state of the target result after the call. -/
def NASATLX.add_rating (result : TLXResult)
    (mental_demand physical_demand temporal_demand performance effort
     frustration : Int) : Option (List Char) × TLXResult :=
  let rating : TLXRating :=
    ⟨mental_demand, physical_demand, temporal_demand, performance, effort,
     frustration⟩
  if rating.validate = false then
    (some "All ratings must be between 1 and 20".toList, result)
  else
    (none, { result with rating := some rating })

end NasaTLX

namespace NasaTLX

/-- Minimum of the six rating values. -/
def TLXRating.minVal (r : TLXRating) : Int :=
  min r.mental_demand (min r.physical_demand (min r.temporal_demand
    (min r.performance (min r.effort r.frustration))))

/-- Maximum of the six rating values. -/
def TLXRating.maxVal (r : TLXRating) : Int :=
  max r.mental_demand (max r.physical_demand (max r.temporal_demand
    (max r.performance (max r.effort r.frustration))))

end NasaTLX

/-- Source `TLXRating.validate` unfolded to its six range conjuncts. -/
theorem NasaTLX.TLXRating.validate_iff (rt : NasaTLX.TLXRating) :
    rt.validate = true ↔
      (1 ≤ rt.mental_demand ∧ rt.mental_demand ≤ 20) ∧
      (1 ≤ rt.physical_demand ∧ rt.physical_demand ≤ 20) ∧
      (1 ≤ rt.temporal_demand ∧ rt.temporal_demand ≤ 20) ∧
      (1 ≤ rt.performance ∧ rt.performance ≤ 20) ∧
      (1 ≤ rt.effort ∧ rt.effort ≤ 20) ∧
      (1 ≤ rt.frustration ∧ rt.frustration ≤ 20) := by
  simp [NasaTLX.TLXRating.validate]

/-- C8: `TLXRating.validate` returns `false` whenever any of the six dimension
values is 0 or 21, returns `true` when all six values are exactly 1 or exactly
20; and `NASATLX.add_rating` raises for any out-of-range value, leaving the
target result (hence its `rating` field) unchanged. -/
theorem claim_C8 :
    (∀ rt : NasaTLX.TLXRating,
      (rt.mental_demand = 0 ∨ rt.mental_demand = 21 ∨
       rt.physical_demand = 0 ∨ rt.physical_demand = 21 ∨
       rt.temporal_demand = 0 ∨ rt.temporal_demand = 21 ∨
       rt.performance = 0 ∨ rt.performance = 21 ∨
       rt.effort = 0 ∨ rt.effort = 21 ∨
       rt.frustration = 0 ∨ rt.frustration = 21) → rt.validate = false) ∧
    (∀ rt : NasaTLX.TLXRating,
      (rt.mental_demand = 1 ∨ rt.mental_demand = 20) →
      (rt.physical_demand = 1 ∨ rt.physical_demand = 20) →
      (rt.temporal_demand = 1 ∨ rt.temporal_demand = 20) →
      (rt.performance = 1 ∨ rt.performance = 20) →
      (rt.effort = 1 ∨ rt.effort = 20) →
      (rt.frustration = 1 ∨ rt.frustration = 20) → rt.validate = true) ∧
    (∀ (result : NasaTLX.TLXResult) (m p t pf e f : Int),
      ¬ ((1 ≤ m ∧ m ≤ 20) ∧ (1 ≤ p ∧ p ≤ 20) ∧ (1 ≤ t ∧ t ≤ 20) ∧
         (1 ≤ pf ∧ pf ≤ 20) ∧ (1 ≤ e ∧ e ≤ 20) ∧ (1 ≤ f ∧ f ≤ 20)) →
      NasaTLX.NASATLX.add_rating result m p t pf e f =
        (some "All ratings must be between 1 and 20".toList, result)) := by
  refine ⟨?_, ?_, ?_⟩
  · intro rt h
    rw [Bool.eq_false_iff, Ne, NasaTLX.TLXRating.validate_iff rt]
    omega
  · intro rt h1 h2 h3 h4 h5 h6
    rw [NasaTLX.TLXRating.validate_iff rt]
    omega
  · intro result m p t pf e f h
    have hval : (⟨m, p, t, pf, e, f⟩ : NasaTLX.TLXRating).validate = false := by
      rw [Bool.eq_false_iff, Ne, NasaTLX.TLXRating.validate_iff]
      exact h
    simp [NasaTLX.NASATLX.add_rating, hval]

/-- Witness for C8: a rating of 0 in the first dimension trips the
out-of-range error of `add_rating` and leaves the result unchanged. -/
theorem claim_C8_witness :
    NasaTLX.NASATLX.add_rating { task_name := "demo".toList } 0 5 5 5 5 5 =
      (some "All ratings must be between 1 and 20".toList,
       ({ task_name := "demo".toList } : NasaTLX.TLXResult)) :=
  claim_C8.2.2 { task_name := "demo".toList } 0 5 5 5 5 5 (by decide)

/-- C10 (implicit): for every `TLXResult` whose rating and pairwise comparison
both validate, `calculate_weighted_tlx` succeeds and returns a weighted score
lying between the minimum and the maximum of the six ratings — hence within
`[1, 20]` — because the computed weights are nonnegative and sum to 1. -/
theorem claim_C10 (r : NasaTLX.TLXResult) (rt : NasaTLX.TLXRating)
    (pc : NasaTLX.TLXPairwiseComparison)
    (hr : r.rating = some rt) (hp : r.pairwise_comparison = some pc)
    (hv : rt.validate = true) (hpv : pc.validate = true) :
    ∃ (r' : NasaTLX.TLXResult) (s : Rat),
      r.calculate_weighted_tlx = .ok r' ∧
      r'.weighted_tlx_score = some s ∧
      (rt.minVal : Rat) ≤ s ∧ s ≤ (rt.maxVal : Rat) ∧ 1 ≤ s ∧ s ≤ 20 := by
  unfold NasaTLX.TLXResult.calculate_weighted_tlx
  rw [hr, hp]
  simp only [hv, hpv, Bool.true_eq_false, if_false]
  set w := pc.calculate_weights with hw
  refine ⟨_, _, rfl, rfl, ?_⟩
  have hw1 := NasaTLX.calculate_weights_nonneg pc .mental_demand
  have hw2 := NasaTLX.calculate_weights_nonneg pc .physical_demand
  have hw3 := NasaTLX.calculate_weights_nonneg pc .temporal_demand
  have hw4 := NasaTLX.calculate_weights_nonneg pc .performance
  have hw5 := NasaTLX.calculate_weights_nonneg pc .effort
  have hw6 := NasaTLX.calculate_weights_nonneg pc .frustration
  have hsum := NasaTLX.calculate_weights_sum_one pc
  rw [← hw] at hw1 hw2 hw3 hw4 hw5 hw6 hsum
  obtain ⟨hb1, hb2, hb3, hb4, hb5, hb6⟩ :=
    (NasaTLX.TLXRating.validate_iff rt).mp hv
  have hmin1 : rt.minVal ≤ rt.mental_demand := by
    unfold NasaTLX.TLXRating.minVal; omega
  have hmin2 : rt.minVal ≤ rt.physical_demand := by
    unfold NasaTLX.TLXRating.minVal; omega
  have hmin3 : rt.minVal ≤ rt.temporal_demand := by
    unfold NasaTLX.TLXRating.minVal; omega
  have hmin4 : rt.minVal ≤ rt.performance := by
    unfold NasaTLX.TLXRating.minVal; omega
  have hmin5 : rt.minVal ≤ rt.effort := by
    unfold NasaTLX.TLXRating.minVal; omega
  have hmin6 : rt.minVal ≤ rt.frustration := by
    unfold NasaTLX.TLXRating.minVal; omega
  have hmax1 : rt.mental_demand ≤ rt.maxVal := by
    unfold NasaTLX.TLXRating.maxVal; omega
  have hmax2 : rt.physical_demand ≤ rt.maxVal := by
    unfold NasaTLX.TLXRating.maxVal; omega
  have hmax3 : rt.temporal_demand ≤ rt.maxVal := by
    unfold NasaTLX.TLXRating.maxVal; omega
  have hmax4 : rt.performance ≤ rt.maxVal := by
    unfold NasaTLX.TLXRating.maxVal; omega
  have hmax5 : rt.effort ≤ rt.maxVal := by
    unfold NasaTLX.TLXRating.maxVal; omega
  have hmax6 : rt.frustration ≤ rt.maxVal := by
    unfold NasaTLX.TLXRating.maxVal; omega
  have hmin_lb : (1 : Int) ≤ rt.minVal := by
    unfold NasaTLX.TLXRating.minVal; omega
  have hmax_ub : rt.maxVal ≤ 20 := by
    unfold NasaTLX.TLXRating.maxVal; omega
  set m : Rat := (rt.minVal : Rat) with hm
  set M : Rat := (rt.maxVal : Rat) with hM
  have q1 : m ≤ (rt.get .mental_demand : Rat) := by
    simp only [NasaTLX.TLXRating.get, hm]; exact_mod_cast hmin1
  have q2 : m ≤ (rt.get .physical_demand : Rat) := by
    simp only [NasaTLX.TLXRating.get, hm]; exact_mod_cast hmin2
  have q3 : m ≤ (rt.get .temporal_demand : Rat) := by
    simp only [NasaTLX.TLXRating.get, hm]; exact_mod_cast hmin3
  have q4 : m ≤ (rt.get .performance : Rat) := by
    simp only [NasaTLX.TLXRating.get, hm]; exact_mod_cast hmin4
  have q5 : m ≤ (rt.get .effort : Rat) := by
    simp only [NasaTLX.TLXRating.get, hm]; exact_mod_cast hmin5
  have q6 : m ≤ (rt.get .frustration : Rat) := by
    simp only [NasaTLX.TLXRating.get, hm]; exact_mod_cast hmin6
  have p1 : (rt.get .mental_demand : Rat) ≤ M := by
    simp only [NasaTLX.TLXRating.get, hM]; exact_mod_cast hmax1
  have p2 : (rt.get .physical_demand : Rat) ≤ M := by
    simp only [NasaTLX.TLXRating.get, hM]; exact_mod_cast hmax2
  have p3 : (rt.get .temporal_demand : Rat) ≤ M := by
    simp only [NasaTLX.TLXRating.get, hM]; exact_mod_cast hmax3
  have p4 : (rt.get .performance : Rat) ≤ M := by
    simp only [NasaTLX.TLXRating.get, hM]; exact_mod_cast hmax4
  have p5 : (rt.get .effort : Rat) ≤ M := by
    simp only [NasaTLX.TLXRating.get, hM]; exact_mod_cast hmax5
  have p6 : (rt.get .frustration : Rat) ≤ M := by
    simp only [NasaTLX.TLXRating.get, hM]; exact_mod_cast hmax6
  have k1 := mul_le_mul_of_nonneg_left q1 hw1
  have k2 := mul_le_mul_of_nonneg_left q2 hw2
  have k3 := mul_le_mul_of_nonneg_left q3 hw3
  have k4 := mul_le_mul_of_nonneg_left q4 hw4
  have k5 := mul_le_mul_of_nonneg_left q5 hw5
  have k6 := mul_le_mul_of_nonneg_left q6 hw6
  have l1 := mul_le_mul_of_nonneg_left p1 hw1
  have l2 := mul_le_mul_of_nonneg_left p2 hw2
  have l3 := mul_le_mul_of_nonneg_left p3 hw3
  have l4 := mul_le_mul_of_nonneg_left p4 hw4
  have l5 := mul_le_mul_of_nonneg_left p5 hw5
  have l6 := mul_le_mul_of_nonneg_left p6 hw6
  have hmexp : w .mental_demand * m + w .physical_demand * m +
      w .temporal_demand * m + w .performance * m + w .effort * m +
      w .frustration * m = m := by
    have : w .mental_demand * m + w .physical_demand * m +
        w .temporal_demand * m + w .performance * m + w .effort * m +
        w .frustration * m =
        (w .mental_demand + w .physical_demand + w .temporal_demand +
         w .performance + w .effort + w .frustration) * m := by ring
    rw [this, hsum, one_mul]
  have hMexp : w .mental_demand * M + w .physical_demand * M +
      w .temporal_demand * M + w .performance * M + w .effort * M +
      w .frustration * M = M := by
    have : w .mental_demand * M + w .physical_demand * M +
        w .temporal_demand * M + w .performance * M + w .effort * M +
        w .frustration * M =
        (w .mental_demand + w .physical_demand + w .temporal_demand +
         w .performance + w .effort + w .frustration) * M := by ring
    rw [this, hsum, one_mul]
  have hmlow : (1 : Rat) ≤ m := by
    rw [hm]; exact_mod_cast hmin_lb
  have hMhigh : M ≤ 20 := by
    rw [hM]; exact_mod_cast hmax_ub
  refine ⟨by linarith, by linarith, by linarith, by linarith⟩

/-- Witness for C10 at a concrete assessment (all ratings 10, all
comparisons 0). -/
theorem claim_C10_witness :
    ∃ (r' : NasaTLX.TLXResult) (s : Rat),
      ({ task_name := "demo2".toList,
         rating := some ⟨10, 10, 10, 10, 10, 10⟩,
         pairwise_comparison :=
           some ⟨0, 0, 0, 0, 0, 0, 0, 0, 0, 0, 0, 0, 0, 0, 0⟩ } :
        NasaTLX.TLXResult).calculate_weighted_tlx = .ok r' ∧
      r'.weighted_tlx_score = some s ∧
      (((⟨10, 10, 10, 10, 10, 10⟩ : NasaTLX.TLXRating).minVal : Rat) ≤ s) ∧
      (s ≤ ((⟨10, 10, 10, 10, 10, 10⟩ : NasaTLX.TLXRating).maxVal : Rat)) ∧
      1 ≤ s ∧ s ≤ 20 :=
  claim_C10 _ ⟨10, 10, 10, 10, 10, 10⟩ ⟨0, 0, 0, 0, 0, 0, 0, 0, 0, 0, 0, 0, 0, 0, 0⟩
    rfl rfl (by decide) (by decide)

/-! ## Psychometrics/app.py -/

namespace PsychApp

open NasaTLX (Dim)

/-- Source `calculate_tlx_score(ratings, weights=None)` from the Streamlit app.
`ratings` maps each of the six `TLX_DIMENSIONS` to its rating; `weights`, when
given, may omit dimensions (the source uses `weights.get(dim, 1)`).  With
weights: `sum(ratings[dim] * weights.get(dim, 1)) / sum(weights.get(dim, 1))`
over the six dimensions, or 0 when the total weight is not positive; without:
`sum(ratings.values()) / len(ratings)` (the app always passes a dict with the
six dimensions as keys, so the divisor is 6). -/
def calculate_tlx_score (ratings : Dim → Rat)
    (weights : Option (Dim → Option Rat)) : Rat :=
  match weights with
  | some w =>
    let weighted_sum :=
      ratings .mental_demand * ((w .mental_demand).getD 1) +
      ratings .physical_demand * ((w .physical_demand).getD 1) +
      ratings .temporal_demand * ((w .temporal_demand).getD 1) +
      ratings .performance * ((w .performance).getD 1) +
      ratings .effort * ((w .effort).getD 1) +
      ratings .frustration * ((w .frustration).getD 1)
    let total_weight :=
      (w .mental_demand).getD 1 + (w .physical_demand).getD 1 +
      (w .temporal_demand).getD 1 + (w .performance).getD 1 +
      (w .effort).getD 1 + (w .frustration).getD 1
    if 0 < total_weight then weighted_sum / total_weight else 0
  | none =>
    (ratings .mental_demand + ratings .physical_demand +
     ratings .temporal_demand + ratings .performance + ratings .effort +
     ratings .frustration) / 6

/-- The example ratings of the claim: Mental 50, Physical 30, Temporal 40,
Performance 60, Effort 45, Frustration 35. -/
def exampleRatings : Dim → Rat
  | .mental_demand => 50
  | .physical_demand => 30
  | .temporal_demand => 40
  | .performance => 60
  | .effort => 45
  | .frustration => 35

/-- The example weights of the claim: Mental 2, every other dimension 1. -/
def exampleWeights : Dim → Option Rat
  | .mental_demand => some 2
  | _ => some 1

end PsychApp

/-- C2: `calculate_tlx_score` on the example ratings with no weights returns
their arithmetic mean `130/3 = 43.33...`; with the example weights it returns
`(50*2+30+40+60+45+35)/7 = 310/7`; and in general, whenever the total weight
is positive, it returns the weight-normalized weighted average
`sum(rating*weight) / sum(weight)`. -/
theorem claim_C2 :
    PsychApp.calculate_tlx_score PsychApp.exampleRatings none = 130/3 ∧
    PsychApp.calculate_tlx_score PsychApp.exampleRatings
      (some PsychApp.exampleWeights) = 310/7 ∧
    (∀ (ratings : NasaTLX.Dim → Rat) (w : NasaTLX.Dim → Option Rat),
      0 < (w .mental_demand).getD 1 + (w .physical_demand).getD 1 +
          (w .temporal_demand).getD 1 + (w .performance).getD 1 +
          (w .effort).getD 1 + (w .frustration).getD 1 →
      PsychApp.calculate_tlx_score ratings (some w) =
        (ratings .mental_demand * ((w .mental_demand).getD 1) +
         ratings .physical_demand * ((w .physical_demand).getD 1) +
         ratings .temporal_demand * ((w .temporal_demand).getD 1) +
         ratings .performance * ((w .performance).getD 1) +
         ratings .effort * ((w .effort).getD 1) +
         ratings .frustration * ((w .frustration).getD 1)) /
        ((w .mental_demand).getD 1 + (w .physical_demand).getD 1 +
         (w .temporal_demand).getD 1 + (w .performance).getD 1 +
         (w .effort).getD 1 + (w .frustration).getD 1)) := by
  refine ⟨?_, ?_, ?_⟩
  · norm_num [PsychApp.calculate_tlx_score, PsychApp.exampleRatings]
  · norm_num [PsychApp.calculate_tlx_score, PsychApp.exampleRatings,
      PsychApp.exampleWeights]
  · intro ratings w h
    simp only [PsychApp.calculate_tlx_score, if_pos h]

/-- Witness for C2's general weighted-average part at the example inputs. -/
theorem claim_C2_witness :
    PsychApp.calculate_tlx_score PsychApp.exampleRatings
        (some PsychApp.exampleWeights) =
      (PsychApp.exampleRatings .mental_demand *
         ((PsychApp.exampleWeights .mental_demand).getD 1) +
       PsychApp.exampleRatings .physical_demand *
         ((PsychApp.exampleWeights .physical_demand).getD 1) +
       PsychApp.exampleRatings .temporal_demand *
         ((PsychApp.exampleWeights .temporal_demand).getD 1) +
       PsychApp.exampleRatings .performance *
         ((PsychApp.exampleWeights .performance).getD 1) +
       PsychApp.exampleRatings .effort *
         ((PsychApp.exampleWeights .effort).getD 1) +
       PsychApp.exampleRatings .frustration *
         ((PsychApp.exampleWeights .frustration).getD 1)) /
      ((PsychApp.exampleWeights .mental_demand).getD 1 +
       (PsychApp.exampleWeights .physical_demand).getD 1 +
       (PsychApp.exampleWeights .temporal_demand).getD 1 +
       (PsychApp.exampleWeights .performance).getD 1 +
       (PsychApp.exampleWeights .effort).getD 1 +
       (PsychApp.exampleWeights .frustration).getD 1) :=
  claim_C2.2.2 PsychApp.exampleRatings PsychApp.exampleWeights
    (by norm_num [PsychApp.exampleWeights])

/-! ## Crewai/config 2.py -/

/-- Python `str.lower()` restricted to its ASCII behavior (all inputs the
claims exercise are ASCII). -/
def pythonLower (s : List Char) : List Char := s.map Char.toLower

namespace CrewaiConfig

/-- The `Config` class attributes relevant to provider detection, as resolved
from the environment at import time.  `LLM_PROVIDER` already holds the
lower-cased value of the `LLM_PROVIDER` environment variable (the source
applies `.lower()` in the attribute initializer). -/
structure Config where
  LLM_PROVIDER : List Char
  OPENAI_API_KEY : List Char
  OPENAI_API_BASE : List Char
  ANTHROPIC_API_KEY : List Char
  GOOGLE_API_KEY : List Char
  AZURE_OPENAI_API_KEY : List Char
  AZURE_OPENAI_ENDPOINT : List Char

/-- Source `Config.detect_best_provider`.  `ollama_up` models the result of the
`_check_ollama_available` socket probe (an external-world observation).
Python string truthiness (`if cls.X:`) is modeled as `≠ []`. -/
def Config.detect_best_provider (c : Config) (ollama_up : Bool) :
    Option (List Char) :=
  if c.LLM_PROVIDER ≠ [] then some c.LLM_PROVIDER
  else if ollama_up then some "ollama".toList
  else if c.OPENAI_API_KEY ≠ [] ∨ c.OPENAI_API_BASE ≠ [] then
    some "openai".toList
  else if c.ANTHROPIC_API_KEY ≠ [] then some "anthropic".toList
  else if c.GOOGLE_API_KEY ≠ [] then some "google".toList
  else if c.AZURE_OPENAI_API_KEY ≠ [] ∧ c.AZURE_OPENAI_ENDPOINT ≠ [] then
    some "azure".toList
  else none

end CrewaiConfig

/-- C3: `detect_best_provider` follows the fixed priority cascade — explicit
override first; else `"ollama"` whenever the Ollama probe succeeds (even with
`OPENAI_API_KEY` set); else `"openai"` when OpenAI credentials are present;
then Anthropic, Google, Azure; and `None` when nothing is available. -/
theorem claim_C3 :
    (∀ (c : CrewaiConfig.Config) (up : Bool), c.LLM_PROVIDER ≠ [] →
      c.detect_best_provider up = some c.LLM_PROVIDER) ∧
    (∀ c : CrewaiConfig.Config, c.LLM_PROVIDER = [] →
      c.detect_best_provider true = some "ollama".toList) ∧
    (∀ c : CrewaiConfig.Config, c.LLM_PROVIDER = [] →
      (c.OPENAI_API_KEY ≠ [] ∨ c.OPENAI_API_BASE ≠ []) →
      c.detect_best_provider false = some "openai".toList) ∧
    (∀ c : CrewaiConfig.Config, c.LLM_PROVIDER = [] →
      c.OPENAI_API_KEY = [] → c.OPENAI_API_BASE = [] →
      c.ANTHROPIC_API_KEY ≠ [] →
      c.detect_best_provider false = some "anthropic".toList) ∧
    (∀ c : CrewaiConfig.Config, c.LLM_PROVIDER = [] →
      c.OPENAI_API_KEY = [] → c.OPENAI_API_BASE = [] →
      c.ANTHROPIC_API_KEY = [] → c.GOOGLE_API_KEY ≠ [] →
      c.detect_best_provider false = some "google".toList) ∧
    (∀ c : CrewaiConfig.Config, c.LLM_PROVIDER = [] →
      c.OPENAI_API_KEY = [] → c.OPENAI_API_BASE = [] →
      c.ANTHROPIC_API_KEY = [] → c.GOOGLE_API_KEY = [] →
      c.AZURE_OPENAI_API_KEY ≠ [] → c.AZURE_OPENAI_ENDPOINT ≠ [] →
      c.detect_best_provider false = some "azure".toList) ∧
    (∀ c : CrewaiConfig.Config, c.LLM_PROVIDER = [] →
      c.OPENAI_API_KEY = [] → c.OPENAI_API_BASE = [] →
      c.ANTHROPIC_API_KEY = [] → c.GOOGLE_API_KEY = [] →
      ¬ (c.AZURE_OPENAI_API_KEY ≠ [] ∧ c.AZURE_OPENAI_ENDPOINT ≠ []) →
      c.detect_best_provider false = none) := by
  refine ⟨?_, ?_, ?_, ?_, ?_, ?_, ?_⟩
  · intro c up h
    simp [CrewaiConfig.Config.detect_best_provider, h]
  · intro c h
    simp [CrewaiConfig.Config.detect_best_provider, h]
  · intro c h1 h2
    unfold CrewaiConfig.Config.detect_best_provider
    simp only [h1, ne_eq, not_true_eq_false, if_false, Bool.false_eq_true]
    rw [if_pos]
    exact h2
  · intro c h1 h2 h3 h4
    simp [CrewaiConfig.Config.detect_best_provider, h1, h2, h3, h4]
  · intro c h1 h2 h3 h4 h5
    simp [CrewaiConfig.Config.detect_best_provider, h1, h2, h3, h4, h5]
  · intro c h1 h2 h3 h4 h5 h6 h7
    simp [CrewaiConfig.Config.detect_best_provider, h1, h2, h3, h4, h5, h6, h7]
  · intro c h1 h2 h3 h4 h5 h6
    simp [CrewaiConfig.Config.detect_best_provider, h1, h2, h3, h4, h5, h6]

/-- Witness for C3: a configuration with both a reachable Ollama endpoint and
an OpenAI key still selects `"ollama"`. -/
theorem claim_C3_witness :
    CrewaiConfig.Config.detect_best_provider
      ⟨[], "sk-test".toList, [], [], [], [], []⟩ true =
      some "ollama".toList :=
  claim_C3.2.1 ⟨[], "sk-test".toList, [], [], [], [], []⟩ rfl

/-! ## Crewai/offline_llm.py -/

namespace OfflineLLM

/-- One loaded knowledge-base row: the pre-split lower-cased keyword list, the
`swarm` tag and the canned `response` (all strings as `List Char`). -/
structure Entry where
  keyword_list : List (List Char)
  swarm : List Char
  response : List Char

/-- The per-row score of `_find_best_match`: one point per keyword occurring
as a substring of the lower-cased prompt, plus a flat 2-point boost when the
row's `swarm` tag occurs as a substring. -/
def score (e : Entry) (prompt_lower : List Char) : Nat :=
  e.keyword_list.countP (fun k => decide (k <:+: prompt_lower)) +
  (if e.swarm <:+: prompt_lower then 2 else 0)

/-- The accumulation loop of `_find_best_match`: scans the rows, keeping the
current best entry and its score, updating only on a strictly greater score. -/
def findBestAux (pl : List Char) :
    List Entry → Option Entry × Nat → Option Entry × Nat
  | [], acc => acc
  | e :: rest, (best, maxS) =>
      if score e pl > maxS then findBestAux pl rest (some e, score e pl)
      else findBestAux pl rest (best, maxS)

/-- Apostrophe character (kept out of string literals). -/
def apos : Char := Char.ofNat 39

/-- Source `_get_generic_fallback`: the templated offline-mode message echoing the
first 100 characters of the prompt. -/
def generic_fallback (prompt : List Char) : List Char :=
  ("**[OFFLINE MODE]**\n\nI am operating in offline mode without an LLM " ++
   "API key. I received your request but couldn").toList ++ [apos] ++
  ("t find a specific pre-canned response for it in my database.\n\n" ++
   "**Your Prompt was:** \"").toList ++
  prompt.take 100 ++
  "...\"\n\nTo see specific offline responses, try keywords like ".toList ++
  [apos] ++ "eda".toList ++ [apos] ++ ", ".toList ++
  [apos] ++ "training".toList ++ [apos] ++ ", ".toList ++
  [apos] ++ "market analysis".toList ++ [apos] ++ ", or ".toList ++
  [apos] ++ "architecture".toList ++ [apos] ++ ".".toList

/-- Source `_find_best_match`: run the scan over the knowledge base starting from
`(None, 0)`; return the best row's response when one scored strictly
positively, the generic fallback otherwise. -/
def find_best_match (responses : List Entry) (prompt : List Char) :
    List Char :=
  let prompt_lower := pythonLower prompt
  match findBestAux prompt_lower responses (none, 0) with
  | (some e, maxS) =>
      if maxS > 0 then e.response else generic_fallback prompt
  | (none, _) => generic_fallback prompt

/-- Source `call`: extract the last message with role `user` (empty content when
there is none) and delegate to `_find_best_match`. -/
def call (responses : List Entry)
    (messages : List (List Char × List Char)) : List Char :=
  let user_message :=
    ((messages.reverse.find? (fun m => m.1 = "user".toList)).map
      Prod.snd).getD []
  find_best_match responses user_message

/-- If every remaining row scores at most the current maximum, the scan
leaves its state unchanged. -/
theorem findBestAux_noUpdate (pl : List Char) :
    ∀ (kb : List Entry) (b : Option Entry) (m : Nat),
      (∀ x ∈ kb, score x pl ≤ m) → findBestAux pl kb (b, m) = (b, m) := by
  intro kb
  induction kb with
  | nil => intro b m _; rfl
  | cons e rest ih =>
    intro b m h
    have he : score e pl ≤ m := h e (List.mem_cons_self e rest)
    have hrest : ∀ x ∈ rest, score x pl ≤ m :=
      fun x hx => h x (List.mem_cons_of_mem e hx)
    simp only [findBestAux]
    rw [if_neg (by omega)]
    exact ih b m hrest

/-- If the knowledge base decomposes as `pre ++ t :: post` where `t` scores
strictly above the incoming maximum, strictly above every earlier row, and at
least every later row, the scan ends on `t` with its score. -/
theorem findBestAux_firstMax (pl : List Char) (t : Entry)
    (post : List Entry) :
    ∀ (pre : List Entry) (b : Option Entry) (m : Nat),
      m < score t pl →
      (∀ x ∈ pre, score x pl < score t pl) →
      (∀ x ∈ post, score x pl ≤ score t pl) →
      findBestAux pl (pre ++ t :: post) (b, m) = (some t, score t pl) := by
  intro pre
  induction pre with
  | nil =>
    intro b m hm _ hpost
    simp only [List.nil_append, findBestAux]
    rw [if_pos (by omega)]
    exact findBestAux_noUpdate pl post (some t) (score t pl) hpost
  | cons e pre' ih =>
    intro b m hm hpre hpost
    have he : score e pl < score t pl := hpre e (List.mem_cons_self e pre')
    have hpre' : ∀ x ∈ pre', score x pl < score t pl :=
      fun x hx => hpre x (List.mem_cons_of_mem e hx)
    simp only [List.cons_append, findBestAux]
    by_cases hcase : score e pl > m
    · rw [if_pos hcase]
      exact ih (some e) (score e pl) he hpre' hpost
    · rw [if_neg hcase]
      exact ih b m hm hpre' hpost

end OfflineLLM

/-- C4: `_find_best_match` returns verbatim the response of the
highest-scoring row with strictly positive score (row score: number of its
keywords occurring as substrings of the lower-cased prompt, plus a flat +2
when its swarm tag occurs as a substring), ties resolved in favor of the
earlier row; when no row scores positively it returns the generic fallback,
which contains the first 100 characters of the prompt. -/
theorem claim_C4 :
    (∀ (prompt : List Char) (pre post : List OfflineLLM.Entry)
       (t : OfflineLLM.Entry),
      0 < OfflineLLM.score t (pythonLower prompt) →
      (∀ x ∈ pre, OfflineLLM.score x (pythonLower prompt) <
        OfflineLLM.score t (pythonLower prompt)) →
      (∀ x ∈ post, OfflineLLM.score x (pythonLower prompt) ≤
        OfflineLLM.score t (pythonLower prompt)) →
      OfflineLLM.find_best_match (pre ++ t :: post) prompt = t.response) ∧
    (∀ (kb : List OfflineLLM.Entry) (prompt : List Char),
      (∀ x ∈ kb, OfflineLLM.score x (pythonLower prompt) = 0) →
      OfflineLLM.find_best_match kb prompt =
        OfflineLLM.generic_fallback prompt) ∧
    (∀ prompt : List Char,
      prompt.take 100 <:+: OfflineLLM.generic_fallback prompt) := by
  refine ⟨?_, ?_, ?_⟩
  · intro prompt pre post t ht hpre hpost
    simp only [OfflineLLM.find_best_match]
    rw [OfflineLLM.findBestAux_firstMax (pythonLower prompt) t post pre none 0
      ht hpre hpost]
    simp only [gt_iff_lt, ht, if_pos]
  · intro kb prompt h
    simp only [OfflineLLM.find_best_match]
    rw [OfflineLLM.findBestAux_noUpdate (pythonLower prompt) kb none 0
      (fun x hx => le_of_eq (h x hx))]
  · intro prompt
    refine ⟨("**[OFFLINE MODE]**\n\nI am operating in offline mode without an LLM " ++
      "API key. I received your request but couldn").toList ++
      [OfflineLLM.apos] ++
      ("t find a specific pre-canned response for it in my database.\n\n" ++
       "**Your Prompt was:** \"").toList,
      "...\"\n\nTo see specific offline responses, try keywords like ".toList ++
        [OfflineLLM.apos] ++ "eda".toList ++ [OfflineLLM.apos] ++ ", ".toList ++
        [OfflineLLM.apos] ++ "training".toList ++ [OfflineLLM.apos] ++
        ", ".toList ++ [OfflineLLM.apos] ++ "market analysis".toList ++
        [OfflineLLM.apos] ++ ", or ".toList ++ [OfflineLLM.apos] ++
        "architecture".toList ++ [OfflineLLM.apos] ++ ".".toList, ?_⟩
    simp only [OfflineLLM.generic_fallback, List.append_assoc]

/-- Witness for C4: a two-row knowledge base where the first row matches the
keyword `eda` in the prompt and the second row matches nothing. -/
theorem claim_C4_witness :
    OfflineLLM.find_best_match
      [⟨["eda".toList], "ml".toList, "canned eda report".toList⟩,
       ⟨["deploy".toList], "devops".toList, "canned deploy report".toList⟩]
      "Please run EDA now".toList = "canned eda report".toList :=
  claim_C4.1 "Please run EDA now".toList []
    [⟨["deploy".toList], "devops".toList, "canned deploy report".toList⟩]
    ⟨["eda".toList], "ml".toList, "canned eda report".toList⟩
    (by decide) (by decide) (by decide)

/-! ## langchain/text_splitter.py -/

namespace TextSplitter

/-- The `RecursiveCharacterTextSplitter` dataclass: two integer fields,
defaults 1000 / 200. -/
structure RecursiveCharacterTextSplitter where
  chunk_size : Int := 1000
  chunk_overlap : Int := 200
deriving DecidableEq, Repr

/-- The dataclass-generated initializer: plain field assignment.  It performs
no validation and cannot raise, so it always returns `ok`.  (All validation in
the source lives inside `split_text`.) -/
def RecursiveCharacterTextSplitter.construct (chunk_size chunk_overlap : Int) :
    Except (List Char) RecursiveCharacterTextSplitter :=
  .ok ⟨chunk_size, chunk_overlap⟩

/-- The `while start < n` loop of `split_text`, annotated with the starting
position of each chunk: `end = min(start + chunk_size, n)`,
`chunk = text[start:end]`, stop when `end == n`, else continue from
`end - chunk_overlap`.  The loop is only entered after validation, so
`chunk_overlap < chunk_size` is carried as a precondition (it guarantees
termination, exactly as in the source). -/
def splitLoop (cs co : Nat) (h : co < cs) (text : List Char) (start : Nat) :
    List (Nat × List Char) :=
  if _hlt : start < text.length then
    let e := min (start + cs) text.length
    let chunk := (text.drop start).take (e - start)
    if _he : e = text.length then [(start, chunk)]
    else (start, chunk) :: splitLoop cs co h text (e - co)
  else []
termination_by text.length - start
decreasing_by
  simp only [gt_iff_lt]
  omega

/-- The loop always emits its current start position first: from any
in-range position the produced list is nonempty and headed by a pair at
that position. -/
theorem splitLoop_head (cs co : Nat) (h : co < cs) (text : List Char)
    (start : Nat) (hs : start < text.length) :
    ∃ c rest, splitLoop cs co h text start = (start, c) :: rest := by
  rw [splitLoop]
  rw [dif_pos hs]
  by_cases he : min (start + cs) text.length = text.length
  · rw [dif_pos he]
    exact ⟨_, _, rfl⟩
  · rw [dif_neg he]
    exact ⟨_, _, rfl⟩

/-- Stride invariant: each produced chunk starts exactly
`chunk_size - chunk_overlap` characters after its predecessor. -/
theorem splitLoop_stride (cs co : Nat) (h : co < cs) (text : List Char) :
    ∀ (start i : Nat) (p q : Nat × List Char),
      (splitLoop cs co h text start).get? i = some p →
      (splitLoop cs co h text start).get? (i + 1) = some q →
      q.1 = p.1 + (cs - co) := by
  intro start
  generalize hk : text.length - start = k
  induction k using Nat.strong_induction_on generalizing start with
  | _ k ih =>
    intro i p q hp hq
    by_cases hs : start < text.length
    · by_cases he : min (start + cs) text.length = text.length
      · have heq : splitLoop cs co h text start =
            [(start, (text.drop start).take
              (min (start + cs) text.length - start))] := by
          rw [splitLoop, dif_pos hs, dif_pos he]
        rw [heq] at hq
        simp [List.get?] at hq
      · have heq : splitLoop cs co h text start =
            (start, (text.drop start).take
              (min (start + cs) text.length - start)) ::
            splitLoop cs co h text (min (start + cs) text.length - co) := by
          rw [splitLoop, dif_pos hs, dif_neg he]
        have hcs : start + cs < text.length := by omega
        have hstart' : min (start + cs) text.length - co =
            start + (cs - co) := by omega
        rw [heq] at hp hq
        cases i with
        | zero =>
          simp only [List.get?] at hp hq
          obtain ⟨c, rest, hrest⟩ := splitLoop_head cs co h text
            (min (start + cs) text.length - co) (by omega)
          rw [hrest] at hq
          simp only [List.get?] at hq
          cases hp
          cases hq
          simp [hstart']
        | succ i' =>
          simp only [List.get?] at hp hq
          exact ih (text.length - (min (start + cs) text.length - co))
            (by omega) (min (start + cs) text.length - co) rfl i' p q hp hq
    · have heq : splitLoop cs co h text start = [] := by
        rw [splitLoop, dif_neg hs]
      rw [heq] at hp
      simp [List.get?] at hp

/-- Every produced chunk has at most `chunk_size` characters. -/
theorem splitLoop_chunk_le (cs co : Nat) (h : co < cs) (text : List Char) :
    ∀ (start : Nat) (p : Nat × List Char),
      p ∈ splitLoop cs co h text start → p.2.length ≤ cs := by
  intro start
  generalize hk : text.length - start = k
  induction k using Nat.strong_induction_on generalizing start with
  | _ k ih =>
    intro p hp
    by_cases hs : start < text.length
    · by_cases he : min (start + cs) text.length = text.length
      · have heq : splitLoop cs co h text start =
            [(start, (text.drop start).take
              (min (start + cs) text.length - start))] := by
          rw [splitLoop, dif_pos hs, dif_pos he]
        rw [heq] at hp
        simp at hp
        subst hp
        simp [List.length_take]
        omega
      · have heq : splitLoop cs co h text start =
            (start, (text.drop start).take
              (min (start + cs) text.length - start)) ::
            splitLoop cs co h text (min (start + cs) text.length - co) := by
          rw [splitLoop, dif_pos hs, dif_neg he]
        rw [heq] at hp
        rcases List.mem_cons.mp hp with h1 | h2
        · subst h1
          simp [List.length_take]
          omega
        · exact ih (text.length - (min (start + cs) text.length - co))
            (by omega) (min (start + cs) text.length - co) rfl p h2
    · have heq : splitLoop cs co h text start = [] := by
        rw [splitLoop, dif_neg hs]
      rw [heq] at hp
      simp at hp

/-- Source `split_text` with chunk starting positions: the three validation checks of
the source in order, then the chunking loop from position 0. -/
def split_text_pairs (s : RecursiveCharacterTextSplitter) (text : List Char) :
    Except (List Char) (List (Nat × List Char)) :=
  if h1 : s.chunk_size ≤ 0 then .error "chunk_size must be > 0".toList
  else if h2 : s.chunk_overlap < 0 then
    .error "chunk_overlap must be >= 0".toList
  else if hge : s.chunk_overlap ≥ s.chunk_size then
    .error "chunk_overlap must be < chunk_size".toList
  else .ok (splitLoop s.chunk_size.toNat s.chunk_overlap.toNat
    (by omega) text 0)

/-- Source `RecursiveCharacterTextSplitter.split_text`: the chunks alone (the
starting positions carried by `split_text_pairs` are specification
bookkeeping, erased here). -/
def RecursiveCharacterTextSplitter.split_text
    (s : RecursiveCharacterTextSplitter) (text : List Char) :
    Except (List Char) (List (List Char)) :=
  (split_text_pairs s text).map (List.map Prod.snd)

end TextSplitter

/-- C5 (amended): with `chunk_size=100, chunk_overlap=20`, on any text longer
than 100 characters `split_text` succeeds, every produced chunk has length at
most 100, the first chunk starts at position 0 and each subsequent chunk
starts exactly 80 characters past its predecessor; and `split_text` — not the
dataclass constructor — fails immediately (before producing any chunk) when
`chunk_size <= 0`, `chunk_overlap < 0`, or `chunk_overlap >= chunk_size`. -/
theorem claim_C5 :
    (∀ text : List Char, 100 < text.length →
      ∃ pairs : List (Nat × List Char),
        TextSplitter.split_text_pairs ⟨100, 20⟩ text = .ok pairs ∧
        (⟨100, 20⟩ : TextSplitter.RecursiveCharacterTextSplitter).split_text
          text = .ok (pairs.map Prod.snd) ∧
        (∀ p ∈ pairs, p.2.length ≤ 100) ∧
        (∀ p, pairs.get? 0 = some p → p.1 = 0) ∧
        (∀ (i : Nat) (p q : Nat × List Char), pairs.get? i = some p →
          pairs.get? (i + 1) = some q → q.1 = p.1 + 80)) ∧
    (∀ (cs co : Int) (text : List Char), cs ≤ 0 →
      (⟨cs, co⟩ : TextSplitter.RecursiveCharacterTextSplitter).split_text
        text = .error "chunk_size must be > 0".toList) ∧
    (∀ (cs co : Int) (text : List Char), 0 < cs → co < 0 →
      (⟨cs, co⟩ : TextSplitter.RecursiveCharacterTextSplitter).split_text
        text = .error "chunk_overlap must be >= 0".toList) ∧
    (∀ (cs co : Int) (text : List Char), 0 < cs → 0 ≤ co → cs ≤ co →
      (⟨cs, co⟩ : TextSplitter.RecursiveCharacterTextSplitter).split_text
        text = .error "chunk_overlap must be < chunk_size".toList) := by
  refine ⟨?_, ?_, ?_, ?_⟩
  · intro text hlen
    have h1 : ¬ ((100 : Int) ≤ 0) := by norm_num
    have h2 : ¬ ((20 : Int) < 0) := by norm_num
    have h3 : ¬ ((20 : Int) ≥ 100) := by norm_num
    refine ⟨TextSplitter.splitLoop (Int.toNat 100) (Int.toNat 20)
      (by omega) text 0, ?_, ?_, ?_, ?_, ?_⟩
    · simp only [TextSplitter.split_text_pairs, dif_neg h1, dif_neg h2,
        dif_neg h3]
    · simp only [TextSplitter.RecursiveCharacterTextSplitter.split_text,
        TextSplitter.split_text_pairs, dif_neg h1, dif_neg h2, dif_neg h3,
        Except.map]
    · intro p hp
      exact TextSplitter.splitLoop_chunk_le 100 20 (by omega) text 0 p hp
    · intro p hp
      obtain ⟨c, rest, hrest⟩ := TextSplitter.splitLoop_head (Int.toNat 100)
        (Int.toNat 20) (by omega) text 0 (by omega)
      rw [hrest] at hp
      simp only [List.get?] at hp
      cases hp
      rfl
    · intro i p q hp hq
      exact TextSplitter.splitLoop_stride 100 20 (by omega) text 0 i p q hp hq
  · intro cs co text hcs
    simp only [TextSplitter.RecursiveCharacterTextSplitter.split_text,
      TextSplitter.split_text_pairs, dif_pos hcs, Except.map]
  · intro cs co text hcs hco
    have h1 : ¬ (cs ≤ 0) := by omega
    simp only [TextSplitter.RecursiveCharacterTextSplitter.split_text,
      TextSplitter.split_text_pairs, dif_neg h1, dif_pos hco, Except.map]
  · intro cs co text hcs hco hge
    have h1 : ¬ (cs ≤ 0) := by omega
    have h2 : ¬ (co < 0) := by omega
    have h3 : co ≥ cs := by omega
    simp only [TextSplitter.RecursiveCharacterTextSplitter.split_text,
      TextSplitter.split_text_pairs, dif_neg h1, dif_neg h2, dif_pos h3,
      Except.map]

/-- Counterexample to C5 as stated: the dataclass constructor performs no
validation, so constructing a splitter with `chunk_size = 0` (or with
`chunk_overlap = chunk_size`) succeeds; the `ValueError` is raised only when
`split_text` is called. -/
theorem claim_C5_counterexample :
    TextSplitter.RecursiveCharacterTextSplitter.construct 0 20 =
      .ok ⟨0, 20⟩ ∧
    TextSplitter.RecursiveCharacterTextSplitter.construct 100 100 =
      .ok ⟨100, 100⟩ ∧
    (⟨0, 20⟩ : TextSplitter.RecursiveCharacterTextSplitter).split_text
      "abc".toList = .error "chunk_size must be > 0".toList ∧
    (⟨100, 100⟩ : TextSplitter.RecursiveCharacterTextSplitter).split_text
      "abc".toList = .error "chunk_overlap must be < chunk_size".toList := by
  refine ⟨rfl, rfl, ?_, ?_⟩
  · simp [TextSplitter.RecursiveCharacterTextSplitter.split_text,
      TextSplitter.split_text_pairs, Except.map]
  · norm_num [TextSplitter.RecursiveCharacterTextSplitter.split_text,
      TextSplitter.split_text_pairs, Except.map]

/-- Witness for C5 on a concrete 101-character text. -/
theorem claim_C5_witness :
    ∃ pairs : List (Nat × List Char),
      TextSplitter.split_text_pairs ⟨100, 20⟩ (List.replicate 101 'a') =
        .ok pairs ∧
      (⟨100, 20⟩ : TextSplitter.RecursiveCharacterTextSplitter).split_text
        (List.replicate 101 'a') = .ok (pairs.map Prod.snd) ∧
      (∀ p ∈ pairs, p.2.length ≤ 100) ∧
      (∀ p, pairs.get? 0 = some p → p.1 = 0) ∧
      (∀ (i : Nat) (p q : Nat × List Char), pairs.get? i = some p →
        pairs.get? (i + 1) = some q → q.1 = p.1 + 80) :=
  claim_C5.1 (List.replicate 101 'a') (by simp)

/-! ## Crewai/tools/dev_tools.py -/

namespace DevTools

/-- The possible structured outcomes of `CodeExecutorTool._run` (the JSON
envelopes reduced to their `status` and payload). -/
inductive ExecOutcome where
  | ready
  | blocked (keyword : List Char)
  | success (result : List Char)
  | execution_error (err : List Char)
  | parsed (preview : List Char)
deriving DecidableEq, Repr

/-- Source `dangerous_keywords` from `CodeExecutorTool._run`. -/
def dangerous_keywords : List (List Char) :=
  ["__import__".toList, "exec".toList, "eval".toList, "open".toList,
   "file".toList, "subprocess".toList]

/-- Source `CodeExecutorTool._run`.  `evalFn` models Python's `eval` on the snippet:
`ok none` for an evaluation to `None`, `ok (some s)` for a result whose
`str()` is `s`, `error e` for a raised exception with message `e`.  The
control flow mirrors the source: empty input → ready; any dangerous keyword a
substring of the lower-cased code → blocked (first keyword in list order);
`eval` only for inputs shorter than 100 characters; a non-`None` result →
success; exception → execution_error; otherwise → parsed with the
100-character preview. -/
def codeExecutorRun
    (evalFn : List Char → Except (List Char) (Option (List Char)))
    (python_code : List Char) : ExecOutcome :=
  if python_code = [] then .ready
  else
    let code_lower := pythonLower python_code
    match dangerous_keywords.find? (fun k => decide (k <:+: code_lower)) with
    | some k => .blocked k
    | none =>
      let preview := if python_code.length > 100 then
        python_code.take 100 ++ "...".toList else python_code
      if python_code.length < 100 then
        match evalFn python_code with
        | .error e => .execution_error e
        | .ok (some r) => .success r
        | .ok none => .parsed preview
      else .parsed preview

/-- A lower-case ASCII keyword survives `pythonLower` of any embedding
string: if it occurs in the raw code it occurs in the lower-cased code. -/
theorem infix_pythonLower_of_lower_fixed (k code : List Char)
    (hk : pythonLower k = k) (h : k <:+: code) :
    k <:+: pythonLower code := by
  obtain ⟨s, t, hst⟩ := h
  refine ⟨pythonLower s, pythonLower t, ?_⟩
  rw [← hk]
  simp only [pythonLower] at hst ⊢
  rw [← List.map_append, ← List.map_append, hst]

/-- Every blocklisted keyword is already lower-case. -/
theorem dangerous_keywords_lower_fixed :
    ∀ k ∈ dangerous_keywords, pythonLower k = k := by decide

end DevTools

/-- C6: `CodeExecutorTool._run` blocks any non-empty snippet containing a
blocklisted substring before ever consulting the evaluator (the outcome is
`blocked` for every evaluator); the snippet `2 + 2` evaluates to `4` with a
`success` outcome; and any clean input of 100 or more characters is never
evaluated (the outcome is `parsed` and identical for every evaluator). -/
theorem claim_C6 :
    (∀ (code k : List Char), code ≠ [] → k ∈ DevTools.dangerous_keywords →
      k <:+: code →
      ∃ k', k' ∈ DevTools.dangerous_keywords ∧
        ∀ evalFn, DevTools.codeExecutorRun evalFn code = .blocked k') ∧
    (∀ evalFn, evalFn "2 + 2".toList = .ok (some "4".toList) →
      DevTools.codeExecutorRun evalFn "2 + 2".toList =
        .success "4".toList) ∧
    (∀ (code : List Char)
       (evalFn evalFn2 : List Char → Except (List Char) (Option (List Char))),
      100 ≤ code.length →
      (∀ k ∈ DevTools.dangerous_keywords, ¬ k <:+: pythonLower code) →
      ∃ p, DevTools.codeExecutorRun evalFn code = .parsed p ∧
        DevTools.codeExecutorRun evalFn2 code = .parsed p) := by
  refine ⟨?_, ?_, ?_⟩
  · intro code k hne hk hinf
    have hlow : k <:+: pythonLower code :=
      DevTools.infix_pythonLower_of_lower_fixed k code
        (DevTools.dangerous_keywords_lower_fixed k hk) hinf
    have hsome : (DevTools.dangerous_keywords.find?
        (fun x => decide (x <:+: pythonLower code))).isSome := by
      rw [List.find?_isSome]
      exact ⟨k, hk, by simpa using hlow⟩
    obtain ⟨k', hk'⟩ := Option.isSome_iff_exists.mp hsome
    refine ⟨k', List.mem_of_find?_eq_some hk', ?_⟩
    intro evalFn
    simp only [DevTools.codeExecutorRun, if_neg hne, hk']
  · intro evalFn hf
    have h1 : ¬ ("2 + 2".toList = ([] : List Char)) := by decide
    have h2 : DevTools.dangerous_keywords.find?
        (fun x => decide (x <:+: pythonLower "2 + 2".toList)) = none := by
      decide
    have h3 : ("2 + 2".toList).length < 100 := by decide
    simp only [DevTools.codeExecutorRun, if_neg h1, h2, if_pos h3, hf]
  · intro code evalFn evalFn2 hlen hclean
    have hne : code ≠ [] := by
      intro hc
      rw [hc] at hlen
      simp at hlen
    have hnone : DevTools.dangerous_keywords.find?
        (fun x => decide (x <:+: pythonLower code)) = none := by
      rw [List.find?_eq_none]
      intro x hx
      simpa using hclean x hx
    have h3 : ¬ (code.length < 100) := by omega
    refine ⟨if code.length > 100 then code.take 100 ++ "...".toList
      else code, ?_, ?_⟩ <;>
      simp only [DevTools.codeExecutorRun, if_neg hne, hnone, if_neg h3]

/-- Witness for C6: `import subprocess` is blocked for every evaluator, and a
concrete evaluator mapping `2 + 2` to `4` yields success. -/
theorem claim_C6_witness :
    (∃ k', k' ∈ DevTools.dangerous_keywords ∧
      ∀ evalFn, DevTools.codeExecutorRun evalFn
        "import subprocess".toList = .blocked k') ∧
    DevTools.codeExecutorRun
      (fun c => if c = "2 + 2".toList then .ok (some "4".toList)
                else .ok none) "2 + 2".toList = .success "4".toList :=
  ⟨claim_C6.1 "import subprocess".toList "subprocess".toList
      (by decide) (by decide) (by decide),
   claim_C6.2.1 _ (by simp)⟩

/-! ## RAG_Model/rag_system.py (fallback path) -/

namespace RagSystem

/-- The `RAGSystem` configuration fields used by the fallback vector-store
path. -/
structure RAGConfig where
  embedding_model : List Char
  vector_store_path : List Char
  chunk_size : Int := 1000
  chunk_overlap : Int := 200

/-- The fallback store dictionary `{chunks, embeddings, model, created_at}`
persisted to `<vector_store_path>/store.pkl` (embeddings as exact rational
vectors). -/
structure StoreData where
  chunks : List (List Char)
  embeddings : List (List Rat)
  model : List Char
  created_at : List Char

/-- Python `range(0, n, step)` for a positive step: the `⌈n/step⌉` positions
`0, step, 2*step, ...` below `n`. -/
def pyRangePos (n step : Nat) : List Nat :=
  List.range' 0 ((n + step - 1) / step) step

/-- Source `RAGSystem.create_vector_store` (fallback path).  `embed` models one call
of the sentence-encoder on one chunk (`encode` maps each chunk to one
vector); `now` models `datetime.now().isoformat()`; `fs` models the content
of `<vector_store_path>/store.pkl` before the call.  Per document, chunks are
the `chunk_size`-character windows starting at each position of
`range(0, len(doc), chunk_size - chunk_overlap)` (an empty range when the
step is negative, an error when it is zero, as in Python).  Returns the store
installed on `self.vector_store` and the file content after the call. -/
def create_vector_store (cfg : RAGConfig) (embed : List Char → List Rat)
    (now : List Char) (documents : List (List Char)) (save : Bool)
    (fs : Option StoreData) :
    Except (List Char) (StoreData × Option StoreData) :=
  if documents = [] then .error "No documents provided".toList
  else
    let step := cfg.chunk_size - cfg.chunk_overlap
    if step = 0 then .error "range() arg 3 must not be zero".toList
    else
      let chunks := documents.flatMap (fun doc =>
        if 0 < step then
          (pyRangePos doc.length step.toNat).map
            (fun i => (doc.drop i).take cfg.chunk_size.toNat)
        else [])
      let embeddings := chunks.map embed
      let store : StoreData :=
        ⟨chunks, embeddings, cfg.embedding_model, now⟩
      (.ok (store, if save then some store else fs))

/-- Source `RAGSystem.load_vector_store` (fallback path): unpickle the store file,
or fail with the NotFound-style error when it is absent. -/
def load_vector_store (fs : Option StoreData) :
    Except (List Char) StoreData :=
  match fs with
  | some s => .ok s
  | none => .error "Vector store not found".toList

end RagSystem

/-- C7: on the fallback path, for every non-empty document list and every
valid chunking configuration, `create_vector_store` (with `save`) followed by
`load_vector_store` yields back exactly the store that was saved — the same
`chunks` list in the same order — and its `embeddings` list has the same
length as its `chunks` list. -/
theorem claim_C7 (cfg : RagSystem.RAGConfig)
    (embed : List Char → List Rat) (now : List Char)
    (documents : List (List Char)) (fs : Option RagSystem.StoreData)
    (hne : documents ≠ []) (hcs : 0 < cfg.chunk_size)
    (hco : 0 ≤ cfg.chunk_overlap) (hlt : cfg.chunk_overlap < cfg.chunk_size) :
    ∃ (store : RagSystem.StoreData) (fs' : Option RagSystem.StoreData),
      RagSystem.create_vector_store cfg embed now documents true fs =
        .ok (store, fs') ∧
      RagSystem.load_vector_store fs' = .ok store ∧
      store.embeddings = store.chunks.map embed ∧
      store.embeddings.length = store.chunks.length := by
  have hstep : ¬ (cfg.chunk_size - cfg.chunk_overlap = 0) := by omega
  simp only [RagSystem.create_vector_store, if_neg hne, if_neg hstep,
    if_pos trivial, if_true]
  refine ⟨_, _, rfl, rfl, rfl, ?_⟩
  simp

/-- Witness for C7 at a concrete one-document corpus and the zero-vector
embedder. -/
theorem claim_C7_witness :
    ∃ (store : RagSystem.StoreData) (fs' : Option RagSystem.StoreData),
      RagSystem.create_vector_store
        ⟨"all-MiniLM-L6-v2".toList, "vector_store".toList, 1000, 200⟩
        (fun _ => [0, 0, 0]) "2026-10-12T00:00:00".toList
        ["hello world".toList] true none = .ok (store, fs') ∧
      RagSystem.load_vector_store fs' = .ok store ∧
      store.embeddings = store.chunks.map (fun _ => [0, 0, 0]) ∧
      store.embeddings.length = store.chunks.length :=
  claim_C7 ⟨"all-MiniLM-L6-v2".toList, "vector_store".toList, 1000, 200⟩
    (fun _ => [0, 0, 0]) "2026-10-12T00:00:00".toList
    ["hello world".toList] none (by decide) (by decide) (by decide) (by decide)

/-! ## Crewai/tasks/business_intelligence_tasks.py -/

namespace BITasks

/-- A CrewAI `Task` as constructed by the task factories: the prose fields
(abbreviated to their identifying first line), the owning agent, the output
file, and the list of predecessor tasks supplying context (`context` holds
the actual `Task` objects, as in the source). -/
inductive Task where
  | mk (description : List Char) (expected_output : List Char)
      (agent : List Char) (output_file : List Char) (context : List Task)

/-- The `context` field of a task. -/
def Task.context : Task → List Task
  | .mk _ _ _ _ c => c

/-- Python attribute assignment `task.context = [...]`. -/
def Task.set_context : Task → List Task → Task
  | .mk d e a o _, ctx => .mk d e a o ctx

/-- Source `create_market_research_task` (context initially unset / empty). -/
def create_market_research_task (agent : List Char) : Task :=
  .mk "Conduct comprehensive market research and competitive analysis on topic: {topic}".toList
    "Comprehensive market research report with competitive analysis, market trends, and strategic insights.".toList
    agent "market_research_report.md".toList []

/-- Source `create_data_analysis_task`. -/
def create_data_analysis_task (agent : List Char) : Task :=
  .mk "Analyze business data and generate actionable insights regarding: {topic}".toList
    "Data analysis report with insights, visualizations, and data-driven recommendations.".toList
    agent "data_analysis_report.md".toList []

/-- Source `create_strategy_consulting_task`. -/
def create_strategy_consulting_task (agent : List Char) : Task :=
  .mk "Develop strategic recommendations and business roadmap for: {topic}".toList
    "Strategic plan with recommendations, roadmap, and implementation guidance.".toList
    agent "strategic_plan_report.md".toList []

/-- Source `create_financial_analysis_task`. -/
def create_financial_analysis_task (agent : List Char) : Task :=
  .mk "Perform financial analysis and modeling related to: {topic}".toList
    "Financial analysis report with models, forecasts, and financial recommendations.".toList
    agent "financial_analysis_report.md".toList []

/-- Source `create_business_reporting_task`. -/
def create_business_reporting_task (agent : List Char) : Task :=
  .mk "Create comprehensive executive business report on: {topic}".toList
    "Comprehensive executive business report with integrated insights, recommendations, and action plans.".toList
    agent "executive_business_report.md".toList []

/-- Source `get_business_intelligence_workflow_tasks`: create the five tasks, wire
the `context` lists (each list holding the previously-constructed task
objects, reflecting Python's in-place mutation ordering), and return them in
execution order. -/
def get_business_intelligence_workflow_tasks
    (agents : List Char → List Char) : List Task :=
  let task_market_research :=
    create_market_research_task (agents "market_researcher".toList)
  let task_data_analysis :=
    create_data_analysis_task (agents "data_analyst".toList)
  let task_strategy :=
    create_strategy_consulting_task (agents "strategy_consultant".toList)
  let task_financial :=
    create_financial_analysis_task (agents "financial_analyst".toList)
  let task_reporting :=
    create_business_reporting_task (agents "business_reporter".toList)
  let task_data_analysis :=
    task_data_analysis.set_context [task_market_research]
  let task_strategy :=
    task_strategy.set_context [task_market_research, task_data_analysis]
  let task_financial :=
    task_financial.set_context [task_market_research, task_data_analysis]
  let task_reporting :=
    task_reporting.set_context
      [task_market_research, task_data_analysis, task_strategy, task_financial]
  [task_market_research, task_data_analysis, task_strategy, task_financial,
   task_reporting]

end BITasks

/-- C9: in the Business Intelligence workflow task list, the final
(reporting) task's context contains exactly the four preceding tasks (in
order), and every task's context references only tasks appearing strictly
earlier in the returned execution order. -/
theorem claim_C9 (agents : List Char → List Char) :
    (BITasks.get_business_intelligence_workflow_tasks agents).get? 4 =
      some (BITasks.Task.set_context
        (BITasks.create_business_reporting_task
          (agents "business_reporter".toList))
        ((BITasks.get_business_intelligence_workflow_tasks agents).take 4)) ∧
    (∀ (i : Nat) (t c : BITasks.Task),
      (BITasks.get_business_intelligence_workflow_tasks agents).get? i =
        some t →
      c ∈ t.context →
      ∃ j, j < i ∧
        (BITasks.get_business_intelligence_workflow_tasks agents).get? j =
          some c) := by
  constructor
  · rfl
  · intro i t c ht hc
    match i, ht with
    | 0, ht =>
      cases ht
      simp [BITasks.get_business_intelligence_workflow_tasks,
        BITasks.create_market_research_task, BITasks.Task.context] at hc
    | 1, ht =>
      cases ht
      simp only [BITasks.get_business_intelligence_workflow_tasks,
        BITasks.create_data_analysis_task, BITasks.Task.set_context,
        BITasks.Task.context, List.mem_singleton] at hc
      exact ⟨0, by omega, by rw [hc]; rfl⟩
    | 2, ht =>
      cases ht
      simp only [BITasks.get_business_intelligence_workflow_tasks,
        BITasks.create_strategy_consulting_task, BITasks.Task.set_context,
        BITasks.Task.context, List.mem_cons, List.mem_singleton,
        List.not_mem_nil, or_false] at hc
      rcases hc with hc | hc
      · exact ⟨0, by omega, by rw [hc]; rfl⟩
      · exact ⟨1, by omega, by rw [hc]; rfl⟩
    | 3, ht =>
      cases ht
      simp only [BITasks.get_business_intelligence_workflow_tasks,
        BITasks.create_financial_analysis_task, BITasks.Task.set_context,
        BITasks.Task.context, List.mem_cons, List.mem_singleton,
        List.not_mem_nil, or_false] at hc
      rcases hc with hc | hc
      · exact ⟨0, by omega, by rw [hc]; rfl⟩
      · exact ⟨1, by omega, by rw [hc]; rfl⟩
    | 4, ht =>
      cases ht
      simp only [BITasks.get_business_intelligence_workflow_tasks,
        BITasks.create_business_reporting_task, BITasks.Task.set_context,
        BITasks.Task.context, List.mem_cons, List.not_mem_nil,
        or_false] at hc
      rcases hc with hc | hc | hc | hc
      · exact ⟨0, by omega, by rw [hc]; rfl⟩
      · exact ⟨1, by omega, by rw [hc]; rfl⟩
      · exact ⟨2, by omega, by rw [hc]; rfl⟩
      · exact ⟨3, by omega, by rw [hc]; rfl⟩
    | n + 5, ht =>
      simp [BITasks.get_business_intelligence_workflow_tasks,
        List.get?] at ht

/-- Witness for C9: in the workflow built over a constant agent map, the
strategy task (index 2) cites the market-research task (index 0). -/
theorem claim_C9_witness :
    ∃ j, j < 2 ∧
      (BITasks.get_business_intelligence_workflow_tasks
        (fun _ => "agent".toList)).get? j =
        some (BITasks.create_market_research_task "agent".toList) :=
  (claim_C9 (fun _ => "agent".toList)).2 2
    (BITasks.Task.set_context
      (BITasks.create_strategy_consulting_task "agent".toList)
      [BITasks.create_market_research_task "agent".toList,
       BITasks.Task.set_context
         (BITasks.create_data_analysis_task "agent".toList)
         [BITasks.create_market_research_task "agent".toList]])
    (BITasks.create_market_research_task "agent".toList) rfl
    (by simp [BITasks.Task.context, BITasks.Task.set_context,
      BITasks.create_strategy_consulting_task])
